import Mathlib

/-!
Shallow embedding of the stormwater retention raster pipeline
(src/natcap/invest/stormwater.py) and proofs about its per-pixel
operations.  Raster values are modelled as rationals; integer raster
values (LULC codes, soil groups, byte flags) as integers or naturals.
All per-pixel functions are translated directly from the numpy code in
the source module.
-/

namespace Stormwater

/-- Global float nodata sentinel for intermediates and outputs
(FLOAT_NODATA = -1 in the source). -/
def FLOAT_NODATA : ℚ := -1

/-- Byte nodata sentinel (UINT8_NODATA = 255 in the source). -/
def UINT8_NODATA : ℕ := 255

/-- Model of numpy.isclose with its default tolerances
(rtol = 1e-5, atol = 1e-8): true iff the absolute difference of a and b
is at most atol + rtol * abs b.  The source uses numpy.isclose to test
float raster values against nodata sentinels. -/
def isclose (a b : ℚ) : Prop := |a - b| ≤ 1 / 100000000 + 1 / 100000 * |b|

instance (a b : ℚ) : Decidable (isclose a b) := by
  unfold isclose
  infer_instance

/-- Translation of the conditional part of the valid mask in volume_op:
the line `if precip_nodata: valid_mask &= ~isclose(precip_array,
precip_nodata)` only masks precipitation nodata when `precip_nodata` is
truthy in Python, i.e. neither None (here `none`) nor 0. -/
def precip_valid (precip : ℚ) : Option ℚ → Prop
  | none => True
  | some pn => pn ≠ 0 → ¬ isclose precip pn

instance (precip : ℚ) (o : Option ℚ) : Decidable (precip_valid precip o) :=
  match o with
  | none => Decidable.isTrue trivial
  | some pn => inferInstanceAs (Decidable (pn ≠ 0 → ¬ isclose precip pn))

/-- Per-pixel translation of volume_op.  The numpy valid mask is
`~isclose(ratio_array, FLOAT_NODATA)` and, only when `precip_nodata` is
truthy, also `~isclose(precip_array, precip_nodata)`.  Valid pixels get
precip * ratio * pixel_area * 0.001; all other pixels keep the
FLOAT_NODATA fill value. -/
def volume_op (ratio precip : ℚ) (precip_nodata : Option ℚ) (pixel_area : ℚ) : ℚ :=
  if ¬ isclose ratio FLOAT_NODATA ∧ precip_valid precip precip_nodata then
    precip * ratio * pixel_area * (1 / 1000)
  else FLOAT_NODATA

/-- Per-pixel translation of adjust_op.  The valid mask requires the two
float inputs to not be numpy-close to FLOAT_NODATA and the two byte
flags to differ from UINT8_NODATA.  The adjustment factor is
`avg_ratio * ~(near_impervious | near_road).astype(bool)`, i.e. the
neighborhood average when both flags are 0 (a bitwise or of naturals is
0 iff both are 0) and 0 otherwise, and the adjusted value is
ratio + (1 - ratio) * factor.  Invalid pixels keep FLOAT_NODATA. -/
def adjust_op (ratio avg_ratio : ℚ) (near_impervious_lulc near_road : ℕ) : ℚ :=
  if ¬ isclose ratio FLOAT_NODATA ∧ ¬ isclose avg_ratio FLOAT_NODATA
      ∧ near_impervious_lulc ≠ UINT8_NODATA ∧ near_road ≠ UINT8_NODATA then
    ratio + (1 - ratio) *
      (if near_impervious_lulc = 0 ∧ near_road = 0 then avg_ratio else 0)
  else FLOAT_NODATA

/-- Per-pixel translation of lte_threshold_op inside is_near: the
output byte is 1 where the distance value is at most the threshold
radius and 0 otherwise (numpy `array <= threshold` written as bytes). -/
def lte_threshold_op (distance threshold : ℚ) : ℕ :=
  if distance ≤ threshold then 1 else 0

/-- Helper: a nonnegative value is never numpy-close to the float
nodata sentinel -1, because the tolerance 1e-8 + 1e-5 is below 1. -/
theorem not_isclose_nodata_of_nonneg {a : ℚ} (h : 0 ≤ a) :
    ¬ isclose a FLOAT_NODATA := by
  rw [isclose, FLOAT_NODATA, not_le]
  have h1 : |a - -1| = a + 1 := by
    rw [abs_of_nonneg (by linarith)]
    ring
  rw [h1]
  norm_num
  linarith

/-- Model of `numpy.digitize(x, bins, right=True)` for a sorted bins
list: it equals `numpy.searchsorted(bins, x, side=left)`, which on a
sorted list is the number of bins strictly smaller than x, i.e. the
first index whose bin is at or above x (or `bins.length` when every bin
is below x). -/
def digitize_right (x : ℤ) (bins : List ℤ) : ℕ :=
  bins.countP (fun b => decide (b < x))

/-- Model of the `numpy.insert(ratio_lookup, 0, zeros, axis=1)` step of
lookup_ratios: a zero column is prepended so that soil group codes 1-4
directly index the four soil group columns. -/
def pad_ratio_lookup (ratio_lookup : List (List ℚ)) : List (List ℚ) :=
  ratio_lookup.map (fun row => 0 :: row)

/-- Model of indexing a numpy 1D array of length n with a possibly
negative integer index: indices in [0, n) index directly, indices in
[-n, 0) wrap around from the end, anything else is an IndexError,
modelled as `none`. -/
def np_get {α : Type} (l : List α) (i : ℤ) : Option α :=
  if 0 ≤ i then l[i.toNat]?
  else if 0 ≤ (l.length : ℤ) + i then l[((l.length : ℤ) + i).toNat]? else none

/-- Per-pixel translation of ratio_op inside lookup_ratios.  A pixel is
valid when the LULC value differs from the LULC nodata sentinel and the
soil group value differs from the soil group nodata sentinel; invalid
pixels keep the FLOAT_NODATA fill value and perform no table lookup.
On a valid pixel the row index comes from
`numpy.digitize(lulc, sorted_lucodes, right=True)` and the output is
`ratio_lookup[row][soil_group]` on the zero-padded lookup array.  An
out-of-range index is an IndexError, modelled as `none`. -/
def ratio_op (lulc_nodata soil_group_nodata : ℤ) (ratio_lookup : List (List ℚ))
    (sorted_lucodes : List ℤ) (lulc soil_group : ℤ) : Option ℚ :=
  if lulc ≠ lulc_nodata ∧ soil_group ≠ soil_group_nodata then
    match (pad_ratio_lookup ratio_lookup)[digitize_right lulc sorted_lucodes]? with
    | some row => np_get row soil_group
    | none => none
  else some FLOAT_NODATA

/-- Translation of avoided_pollutant_load_op on a block of pixels, each
a pair of LULC code and retention volume.  Unlike lookup_ratios, the
source computes `lulc_index = numpy.digitize(lulc_array, sorted_lucodes,
right=True)` for every pixel of the block and evaluates
`emc_array[lulc_index]` before applying the valid mask, so a single
out-of-range index anywhere in the block (valid or not) raises an
IndexError, modelled as `none` for the whole block.  Otherwise each
valid pixel gets emc * 0.001 * volume and each invalid pixel keeps
FLOAT_NODATA. -/
def avoided_pollutant_load_op (lulc_nodata : ℤ) (pixels : List (ℤ × ℚ))
    (sorted_lucodes : List ℤ) (emc_array : List ℚ) : Option (List ℚ) :=
  if (pixels.map (fun p => digitize_right p.1 sorted_lucodes)).all
      (fun i => decide (i < emc_array.length)) then
    some (pixels.map (fun p =>
      if p.1 ≠ lulc_nodata ∧ ¬ isclose p.2 FLOAT_NODATA then
        emc_array.getD (digitize_right p.1 sorted_lucodes) 0 * (1 / 1000) * p.2
      else FLOAT_NODATA))
  else none

/-- Raster file registry entries of execute that matter for the
aggregation wiring (INTERMEDIATE_OUTPUTS and FINAL_OUTPUTS). -/
inductive RasterPath
  | retention_ratio
  | adjusted_retention_ratio
  | retention_volume
deriving DecidableEq

/-- Translation of the branch at the end of the adjustment section of
execute: when adjust_retention_ratios is set, the final retention ratio
path is the adjusted raster, otherwise the base raster. -/
def final_retention_ratio_path (adjust_retention_ratios : Bool) : RasterPath :=
  if adjust_retention_ratios then RasterPath.adjusted_retention_ratio
  else RasterPath.retention_ratio

/-- The raster that execute passes to volume_op for the retention
volume: the first positional raster of the retention volume task is
final_retention_ratio_path. -/
def retention_volume_source (adjust_retention_ratios : Bool) : RasterPath :=
  final_retention_ratio_path adjust_retention_ratios

/-- One (raster path, output field name, op) aggregation triple of
execute. -/
structure Aggregation where
  raster : RasterPath
  field_id : String
  op : String
deriving DecidableEq

/-- Translation of the initial data_to_aggregate list of execute.  The
source builds this same list on both branches of
adjust_retention_ratios: the mean retention ratio entry always uses the
base retention_ratio raster and the sum entry uses the retention volume
raster. -/
def data_to_aggregate (_adjust_retention_ratios : Bool) : List Aggregation :=
  [⟨RasterPath.retention_ratio, "RR_mean", "mean"⟩,
   ⟨RasterPath.retention_volume, "RV_sum", "sum"⟩]

/-- Source raster for the Neighborhood Averager: a rectangular grid of
rational sample values with a designated nodata sentinel.  The data
function is only meaningful inside the extent. -/
structure SourceRaster where
  width : ℕ
  height : ℕ
  data : ℤ → ℤ → ℚ
  nodata : ℚ

/-- Whether a pixel coordinate lies inside the raster extent. -/
def in_extent (src : SourceRaster) (x y : ℤ) : Bool :=
  decide (0 ≤ x) && decide (x < (src.width : ℤ)) &&
    decide (0 ≤ y) && decide (y < (src.height : ℤ))

/-- Translation of `pixel_margin = math.floor(pixel_radius)` in
make_search_kernel, as a natural number (for a nonnegative radius the
two agree; numpy array shapes are naturals). -/
def pixel_margin (pixel_radius : ℚ) : ℕ := Int.toNat ⌊pixel_radius⌋

/-- Side length of the search kernel:
`search_kernel_shape = tuple([pixel_margin * 2 + 1] * 2)`. -/
def search_kernel_shape (pixel_radius : ℚ) : ℕ := 2 * pixel_margin pixel_radius + 1

/-- Entry (row, col) of the search kernel built by make_search_kernel:
1 where `numpy.hypot(col - margin, row - margin) <= pixel_radius` and 0
elsewhere.  Since hypot is nonnegative, the comparison holds iff the
radius is nonnegative and the squared distance is at most the squared
radius, which avoids square roots in the definition. -/
def search_kernel (pixel_radius : ℚ) (row col : ℕ) : ℕ :=
  if 0 ≤ pixel_radius ∧
      ((col : ℚ) - (pixel_margin pixel_radius : ℕ))^2 +
        ((row : ℚ) - (pixel_margin pixel_radius : ℕ))^2 ≤ pixel_radius^2 then 1
  else 0

/-- The list of relative offsets (dx, dy) flagged 1 in the search
kernel, with the kernel center at offset (0, 0): column index c of the
kernel array corresponds to dx = c - margin and row index r to
dy = r - margin. -/
def kernel_offsets (pixel_radius : ℚ) : List (ℤ × ℤ) :=
  let side := search_kernel_shape pixel_radius
  let m : ℤ := pixel_margin pixel_radius
  (List.range side).flatMap (fun r =>
    (List.range side).filterMap (fun c =>
      if search_kernel pixel_radius r c = 1 then some ((c : ℤ) - m, (r : ℤ) - m)
      else none))

/-- The kernel-flagged offsets of a pixel that actually contribute to
its neighborhood average: those whose target cell is inside the raster
extent and does not hold the nodata sentinel. -/
def included_offsets (src : SourceRaster) (pixel_radius : ℚ) (x y : ℤ) :
    List (ℤ × ℤ) :=
  (kernel_offsets pixel_radius).filter (fun d =>
    in_extent src (x + d.1) (y + d.2) &&
      decide (src.data (x + d.1) (y + d.2) ≠ src.nodata))

/-- Modelled from the spec: pygeoprocessing.convolve_2d is an external
collaborator (interface `convolve` in the spec) and its implementation
is not part of this repository.  This definition follows the spec of
the Neighborhood Averager, step 3 and 4, for the flags raster_average
passes (ignore_nodata_and_edges=True, normalize_kernel=True,
mask_nodata=True): per output pixel, sum the source values at
kernel-flagged offsets excluding contributing cells that are nodata or
outside the extent, and divide by the count of non-excluded offsets;
a pixel whose offsets are all excluded is nodata, and output nodata
(modelled as `none`) must match input nodata locations. -/
def convolve_2d_pixel (src : SourceRaster) (pixel_radius : ℚ) (x y : ℤ) :
    Option ℚ :=
  if src.data x y = src.nodata then none
  else if (included_offsets src pixel_radius x y).isEmpty then none
  else some (((included_offsets src pixel_radius x y).map
      (fun d => src.data (x + d.1) (y + d.2))).sum /
    ((included_offsets src pixel_radius x y).length : ℚ))

/-- Translation of raster_average at one pixel: build the search kernel
for the radius expressed in pixels (radius divided by pixel size, as in
make_search_kernel) and apply the normalized masked convolution. -/
def raster_average_pixel (src : SourceRaster) (radius pixel_size : ℚ)
    (x y : ℤ) : Option ℚ :=
  convolve_2d_pixel src (radius / pixel_size) x y

/-- Helper: every value is numpy-close to itself, since the tolerance
is nonnegative. -/
theorem isclose_self (a : ℚ) : isclose a a := by
  rw [isclose]
  simp
  positivity

end Stormwater

namespace Stormwater

/-- C9: the thresholded output of the Proximity Detector is 1 exactly
when the distance to the nearest feature pixel is at most the radius
and 0 exactly when the distance exceeds the radius; in particular a
pixel at exactly distance = radius is classified near. -/
theorem c9_is_near_threshold (distance radius : ℚ) :
    (lte_threshold_op distance radius = 1 ↔ distance ≤ radius) ∧
    (lte_threshold_op distance radius = 0 ↔ radius < distance) ∧
    lte_threshold_op radius radius = 1 := by
  refine ⟨?_, ?_, by rw [lte_threshold_op, if_pos le_rfl]⟩
  · rw [lte_threshold_op]
    split_ifs with h
    · exact iff_of_true rfl h
    · exact iff_of_false (by norm_num) h
  · rw [lte_threshold_op]
    split_ifs with h
    · exact iff_of_false (by norm_num) (not_lt.mpr h)
    · exact iff_of_true rfl (not_le.mp h)

/-- C2 (code bug witnessed): when the precipitation nodata sentinel is
0, volume_op skips the precipitation nodata mask (the source guard is
`if precip_nodata:` which is falsy for 0), so a pixel whose
precipitation equals its nodata sentinel 0 gets volume 0 instead of
the FLOAT_NODATA sentinel that strict nodata propagation demands. -/
theorem c2_volume_op_skips_zero_sentinel :
    volume_op (1/2) 0 (some 0) 400 = 0 ∧ (0 : ℚ) ≠ FLOAT_NODATA := by
  constructor
  · rw [volume_op, if_pos]
    · norm_num
    · exact ⟨not_isclose_nodata_of_nonneg (by norm_num),
        by rw [precip_valid]; intro h; simp at h⟩
  · rw [FLOAT_NODATA]
    norm_num

/-- C6: on a pixel where the LULC value equals the LULC nodata sentinel
or the soil group value equals the soil group nodata sentinel, the
Reclassification Kernel writes the global float nodata sentinel and
performs no table lookup (the result is some FLOAT_NODATA for every
lookup table and code list, and never an out-of-range access). -/
theorem c6_ratio_op_nodata (lulc_nodata soil_group_nodata lulc soil_group : ℤ)
    (ratio_lookup : List (List ℚ)) (sorted_lucodes : List ℤ)
    (h : lulc = lulc_nodata ∨ soil_group = soil_group_nodata) :
    ratio_op lulc_nodata soil_group_nodata ratio_lookup sorted_lucodes
      lulc soil_group = some FLOAT_NODATA := by
  rw [ratio_op, if_neg]
  rintro ⟨h1, h2⟩
  rcases h with h | h
  exacts [h1 h, h2 h]

theorem c6_ratio_op_nodata_witness :
    ((5 : ℤ) = 5 ∨ (2 : ℤ) = -1) ∧
    ratio_op 5 (-1) [[1, 2, 3, 4]] [3] 5 2 = some FLOAT_NODATA :=
  ⟨Or.inl rfl, c6_ratio_op_nodata 5 (-1) 5 2 [[1, 2, 3, 4]] [3] (Or.inl rfl)⟩

/-- C3: given a base ratio in [0, 1], a neighborhood average in [0, 1]
(so the adjustment factor, which is the average or 0, is in [0, 1]) and
valid proximity flags, the adjusted retention ratio is at least the
base ratio and at most 1. -/
theorem c3_adjust_op_monotone_blend (ratio avg_ratio : ℚ) (ni nr : ℕ)
    (h0 : 0 ≤ ratio) (h1 : ratio ≤ 1) (h2 : 0 ≤ avg_ratio) (h3 : avg_ratio ≤ 1)
    (h4 : ni ≠ UINT8_NODATA) (h5 : nr ≠ UINT8_NODATA) :
    ratio ≤ adjust_op ratio avg_ratio ni nr ∧
      adjust_op ratio avg_ratio ni nr ≤ 1 := by
  rw [adjust_op, if_pos ⟨not_isclose_nodata_of_nonneg h0,
    not_isclose_nodata_of_nonneg h2, h4, h5⟩]
  split_ifs with hflag
  · constructor <;> nlinarith
  · constructor <;> nlinarith

theorem c3_adjust_op_monotone_blend_witness :
    (0 : ℚ) ≤ 3/10 ∧ (3/10 : ℚ) ≤ 1 ∧ (0 : ℚ) ≤ 1/2 ∧ (1/2 : ℚ) ≤ 1 ∧
    (0 : ℕ) ≠ UINT8_NODATA ∧
    (3/10 ≤ adjust_op (3/10) (1/2) 0 0 ∧ adjust_op (3/10) (1/2) 0 0 ≤ 1) :=
  ⟨by norm_num, by norm_num, by norm_num, by norm_num,
    by rw [UINT8_NODATA]; norm_num,
    c3_adjust_op_monotone_blend (3/10) (1/2) 0 0 (by norm_num) (by norm_num)
      (by norm_num) (by norm_num) (by rw [UINT8_NODATA]; norm_num)
      (by rw [UINT8_NODATA]; norm_num)⟩

end Stormwater

namespace Stormwater

/-- Helper: the concrete value -999999/1000000 differs from the float
nodata sentinel but lies within the numpy.isclose tolerance of it. -/
theorem isclose_near_sentinel : isclose (-999999/1000000) FLOAT_NODATA := by
  rw [isclose, FLOAT_NODATA]
  rw [show (-999999/1000000 : ℚ) - (-1) = 1/1000000 by norm_num]
  rw [abs_of_nonneg (by norm_num : (0:ℚ) ≤ 1/1000000)]
  rw [abs_of_nonpos (by norm_num : (-1:ℚ) ≤ 0)]
  norm_num

/-- C1 (counterexample): a pixel whose base ratio is -999999/1000000
differs from the float nodata sentinel -1, and the other three inputs
are valid as well, yet adjust_op returns the nodata sentinel instead of
base + (1 - base) * adjustment_factor, because the source tests float
validity with numpy.isclose rather than exact comparison. -/
theorem c1_adjust_op_counterexample :
    (-999999/1000000 : ℚ) ≠ FLOAT_NODATA ∧ (1/2 : ℚ) ≠ FLOAT_NODATA ∧
    (0 : ℕ) ≠ UINT8_NODATA ∧
    adjust_op (-999999/1000000) (1/2) 0 0 = FLOAT_NODATA ∧
    adjust_op (-999999/1000000) (1/2) 0 0 ≠
      -999999/1000000 + (1 - (-999999/1000000)) * (1/2) := by
  have hval : adjust_op (-999999/1000000) (1/2) 0 0 = FLOAT_NODATA := by
    rw [adjust_op, if_neg]
    rintro ⟨hn, -⟩
    exact hn isclose_near_sentinel
  refine ⟨by rw [FLOAT_NODATA]; norm_num, by rw [FLOAT_NODATA]; norm_num,
    by rw [UINT8_NODATA]; norm_num, hval, ?_⟩
  rw [hval, FLOAT_NODATA]
  norm_num

/-- C1 (amended): on a pixel where neither float input is within
numpy.isclose tolerance of the float nodata sentinel and neither byte
flag is the byte nodata sentinel, adjust_op outputs
base + (1 - base) * adjustment_factor with the factor equal to the
neighborhood average when the pixel is neither near impervious land
cover nor near a road and 0 otherwise; and whenever any of the four
inputs equals its nodata sentinel the output is the float nodata
sentinel. -/
theorem c1_adjust_op_spec (ratio avg_ratio : ℚ) (ni nr : ℕ) :
    (¬ isclose ratio FLOAT_NODATA → ¬ isclose avg_ratio FLOAT_NODATA →
      ni ≠ UINT8_NODATA → nr ≠ UINT8_NODATA →
      adjust_op ratio avg_ratio ni nr = ratio + (1 - ratio) *
        (if ni = 0 ∧ nr = 0 then avg_ratio else 0)) ∧
    (ratio = FLOAT_NODATA ∨ avg_ratio = FLOAT_NODATA ∨
        ni = UINT8_NODATA ∨ nr = UINT8_NODATA →
      adjust_op ratio avg_ratio ni nr = FLOAT_NODATA) := by
  constructor
  · intro h1 h2 h3 h4
    rw [adjust_op, if_pos ⟨h1, h2, h3, h4⟩]
  · intro h
    rw [adjust_op, if_neg]
    rintro ⟨g1, g2, g3, g4⟩
    rcases h with h | h | h | h
    · exact g1 (h ▸ isclose_self FLOAT_NODATA)
    · exact g2 (h ▸ isclose_self FLOAT_NODATA)
    · exact g3 h
    · exact g4 h

theorem c1_adjust_op_spec_witness :
    ¬ isclose (1/2) FLOAT_NODATA ∧ ¬ isclose (3/4) FLOAT_NODATA ∧
    (0 : ℕ) ≠ UINT8_NODATA ∧
    adjust_op (1/2) (3/4) 0 0 = 1/2 + (1 - 1/2) * (3/4) ∧
    adjust_op FLOAT_NODATA (3/4) 0 0 = FLOAT_NODATA := by
  have h1 : ¬ isclose (1/2 : ℚ) FLOAT_NODATA :=
    not_isclose_nodata_of_nonneg (by norm_num)
  have h2 : ¬ isclose (3/4 : ℚ) FLOAT_NODATA :=
    not_isclose_nodata_of_nonneg (by norm_num)
  have h3 : (0 : ℕ) ≠ UINT8_NODATA := by rw [UINT8_NODATA]; norm_num
  refine ⟨h1, h2, h3, ?_, (c1_adjust_op_spec FLOAT_NODATA (3/4) 0 0).2 (Or.inl rfl)⟩
  have := (c1_adjust_op_spec (1/2) (3/4) 0 0).1 h1 h2 h3 h3
  simpa using this

/-- C4 (counterexample): with retention ratio adjustment enabled, it is
not the case that the aggregation entry for the RR_mean field uses the
final (adjusted) retention ratio raster: the entry in data_to_aggregate
names the base retention_ratio raster. -/
theorem c4_aggregation_counterexample :
    ¬ (∀ a ∈ data_to_aggregate true, a.field_id = "RR_mean" →
        a.raster = final_retention_ratio_path true) := by
  decide

/-- C4 (amended): even when adjustment is enabled, the raster
aggregated as RR_mean is the unadjusted base retention ratio raster,
while the retention volume raster aggregated as RV_sum is computed from
the adjusted retention ratio raster (the final retention ratio path). -/
theorem c4_aggregation_uses_base_ratio :
    (data_to_aggregate true).map (fun a => (a.raster, a.field_id)) =
      [(RasterPath.retention_ratio, "RR_mean"),
       (RasterPath.retention_volume, "RV_sum")] ∧
    retention_volume_source true = RasterPath.adjusted_retention_ratio ∧
    RasterPath.retention_ratio ≠ RasterPath.adjusted_retention_ratio := by
  decide

end Stormwater

namespace Stormwater

/-- Key property of the right-rule binary search on a sorted code list:
if position i holds the first code at or above x (every earlier code is
strictly below x), then digitize_right returns i. -/
theorem digitize_right_eq_first_at_or_above (x : ℤ) :
    ∀ (bins : List ℤ) (i : ℕ) (c : ℤ), bins.Sorted (· < ·) →
      bins[i]? = some c → x ≤ c →
      (∀ j d, j < i → bins[j]? = some d → d < x) →
      digitize_right x bins = i := by
  intro bins
  induction bins with
  | nil =>
    intro i c _ hget _ _
    simp at hget
  | cons b bs ih =>
    intro i c hsort hget hxc hbelow
    obtain ⟨hb, hs⟩ := List.sorted_cons.mp hsort
    cases i with
    | zero =>
      rw [List.getElem?_cons_zero] at hget
      have hbc : b = c := by injection hget
      rw [digitize_right, List.countP_cons]
      have hnb : ¬ (b < x) := not_lt.mpr (hbc ▸ hxc)
      have h0 : bs.countP (fun e => decide (e < x)) = 0 := by
        rw [List.countP_eq_zero]
        intro e he
        have : b < e := hb e he
        simp only [decide_eq_true_eq]
        omega
      simp [h0, hnb]
    | succ i' =>
      have hbx : b < x := by
        exact hbelow 0 b (Nat.succ_pos _) List.getElem?_cons_zero
      rw [List.getElem?_cons_succ] at hget
      have hbelow' : ∀ j d, j < i' → bs[j]? = some d → d < x := by
        intro j d hj hjd
        exact hbelow (j + 1) d (by omega) (by rw [List.getElem?_cons_succ]; exact hjd)
      have htail := ih i' c hs hget hxc hbelow'
      rw [digitize_right, List.countP_cons]
      rw [digitize_right] at htail
      simp [htail, hbx]

/-- When every code of the sorted list is strictly below x, the
right-rule binary search returns the length of the list, one past the
last valid row index. -/
theorem digitize_right_eq_length (x : ℤ) (bins : List ℤ)
    (h : ∀ c ∈ bins, c < x) : digitize_right x bins = bins.length := by
  rw [digitize_right, List.countP_eq_length]
  intro c hc
  simpa using h c hc

/-- C5: on a valid pixel, when position i of the Sorted Code Index
holds the first code at or above the pixel LULC code (for a code
present in the index this is the position of the code itself; for an
absent code it is the nearest index at or above it, the right rule),
the Reclassification Kernel returns the Dense Ratio Array entry of row
i at the soil group column, without failing. -/
theorem c5_lookup_ratios_row_selection (lulc_nodata soil_group_nodata : ℤ)
    (ratio_lookup : List (List ℚ)) (sorted_lucodes : List ℤ)
    (lulc soil_group : ℤ) (i : ℕ) (c : ℤ)
    (hsort : sorted_lucodes.Sorted (· < ·))
    (hlen : ratio_lookup.length = sorted_lucodes.length)
    (hrows : ∀ row ∈ ratio_lookup, row.length = 4)
    (hl : lulc ≠ lulc_nodata) (hs : soil_group ≠ soil_group_nodata)
    (hsg1 : 1 ≤ soil_group) (hsg4 : soil_group ≤ 4)
    (hi : sorted_lucodes[i]? = some c) (hxc : lulc ≤ c)
    (hbelow : ∀ j d, j < i → sorted_lucodes[j]? = some d → d < lulc) :
    ∃ row, ratio_lookup[i]? = some row ∧
      ∃ v, (0 :: row)[soil_group.toNat]? = some v ∧
        ratio_op lulc_nodata soil_group_nodata ratio_lookup sorted_lucodes
          lulc soil_group = some v := by
  have hd : digitize_right lulc sorted_lucodes = i :=
    digitize_right_eq_first_at_or_above lulc sorted_lucodes i c hsort hi hxc hbelow
  have hi_lt : i < sorted_lucodes.length := by
    rcases List.getElem?_eq_some.mp hi with ⟨h, -⟩
    exact h
  have hi_lt' : i < ratio_lookup.length := by omega
  obtain ⟨row, hrow⟩ : ∃ row, ratio_lookup[i]? = some row :=
    ⟨ratio_lookup[i], List.getElem?_eq_some.mpr ⟨hi_lt', rfl⟩⟩
  have hrowlen : row.length = 4 := by
    apply hrows
    exact List.getElem?_mem hrow
  have hsn : soil_group.toNat < (0 :: row).length := by
    simp [hrowlen]
    omega
  refine ⟨row, hrow, (0 :: row)[soil_group.toNat],
    List.getElem?_eq_some.mpr ⟨hsn, rfl⟩, ?_⟩
  rw [ratio_op, if_pos ⟨hl, hs⟩, hd]
  have hpad : (pad_ratio_lookup ratio_lookup)[i]? = some (0 :: row) := by
    rw [pad_ratio_lookup, List.getElem?_map, hrow]
    rfl
  rw [hpad]
  show np_get (0 :: row) soil_group = _
  unfold np_get
  rw [if_pos (by omega : (0 : ℤ) ≤ soil_group)]
  exact List.getElem?_eq_some.mpr ⟨hsn, rfl⟩

theorem c5_lookup_ratios_row_selection_witness :
    ([3, 7] : List ℤ).Sorted (· < ·) ∧ (5 : ℤ) ≤ 7 ∧
    (∃ row, ([[1/10, 2/10, 3/10, 4/10], [5/10, 6/10, 7/10, 8/10]] :
        List (List ℚ))[1]? = some row ∧
      ∃ v, (0 :: row)[(2 : ℤ).toNat]? = some v ∧
        ratio_op (-1) (-1) [[1/10, 2/10, 3/10, 4/10], [5/10, 6/10, 7/10, 8/10]]
          [3, 7] 5 2 = some v) := by
  refine ⟨by simp [List.sorted_cons], by norm_num, ?_⟩
  exact c5_lookup_ratios_row_selection (-1) (-1)
    [[1/10, 2/10, 3/10, 4/10], [5/10, 6/10, 7/10, 8/10]] [3, 7] 5 2 1 7
    (by simp [List.sorted_cons]) (by simp) (by simp)
    (by norm_num) (by norm_num) (by norm_num) (by norm_num)
    (by simp) (by norm_num)
    (by intro j d hj hjd
        interval_cases j
        · simp at hjd
          omega)

/-- C10: a LULC value strictly above every code of the Sorted Code
Index makes the dense-array lookups index one past the end of their
arrays.  In lookup_ratios this IndexError (modelled as none) happens
for a valid pixel carrying such a code; in avoided_pollutant_load_op
the EMC array is indexed with the binned positions of all pixels before
the valid mask is applied, so a block containing such a code anywhere,
even as the nodata sentinel of an invalid pixel, makes the whole
operation fail. -/
theorem c10_out_of_range_code_fails (sorted_lucodes : List ℤ)
    (ratio_lookup : List (List ℚ)) (emc_array : List ℚ)
    (lulc_nodata soil_group_nodata lulc soil_group : ℤ)
    (pixels : List (ℤ × ℚ)) (volume : ℚ)
    (hbig : ∀ c ∈ sorted_lucodes, c < lulc) :
    (ratio_lookup.length = sorted_lucodes.length → lulc ≠ lulc_nodata →
      soil_group ≠ soil_group_nodata →
      ratio_op lulc_nodata soil_group_nodata ratio_lookup sorted_lucodes lulc
        soil_group = none) ∧
    (emc_array.length = sorted_lucodes.length → (lulc, volume) ∈ pixels →
      avoided_pollutant_load_op lulc_nodata pixels sorted_lucodes emc_array
        = none) := by
  have hd : digitize_right lulc sorted_lucodes = sorted_lucodes.length :=
    digitize_right_eq_length lulc sorted_lucodes hbig
  constructor
  · intro hlen hl hs
    rw [ratio_op, if_pos ⟨hl, hs⟩, hd]
    have hnone : (pad_ratio_lookup ratio_lookup)[sorted_lucodes.length]? = none := by
      apply List.getElem?_eq_none
      simp [pad_ratio_lookup, hlen]
    rw [hnone]
  · intro hlen hmem
    rw [avoided_pollutant_load_op, if_neg]
    intro hall
    have hin : digitize_right lulc sorted_lucodes ∈
        pixels.map (fun p => digitize_right p.1 sorted_lucodes) :=
      List.mem_map_of_mem (fun p => digitize_right p.1 sorted_lucodes) hmem
    have := List.all_eq_true.mp hall _ hin
    rw [hd] at this
    simp only [decide_eq_true_eq] at this
    omega

theorem c10_out_of_range_code_fails_witness :
    (∀ c ∈ ([3, 7] : List ℤ), c < 255) ∧
    ratio_op (-1) (-1) [[1, 2, 3, 4], [5, 6, 7, 8]] [3, 7] 255 2 = none ∧
    avoided_pollutant_load_op 255 [(255, 20)] [3, 7] [1, 2] = none := by
  refine ⟨by decide, ?_, ?_⟩
  · exact (c10_out_of_range_code_fails [3, 7] [[1, 2, 3, 4], [5, 6, 7, 8]]
      [1, 2] (-1) (-1) 255 2 [(255, 20)] 20 (by decide)).1
      (by simp) (by norm_num) (by norm_num)
  · exact (c10_out_of_range_code_fails [3, 7] [[1, 2, 3, 4], [5, 6, 7, 8]]
      [1, 2] 255 (-1) 255 2 [(255, 20)] 20 (by decide)).2
      (by simp) (by simp)

end Stormwater

namespace Stormwater

/-- C8: for a nonnegative radius expressed in pixels, the search kernel
is a square of side 2 * floor(radius_in_pixels) + 1 whose cell at
(row, col) is 1 exactly when the Euclidean center-to-center distance
from that cell to the middle cell (at index margin in both axes) is at
most the radius in pixels, and the center cell is always 1. -/
theorem c8_search_kernel_spec (pixel_radius : ℚ) (h : 0 ≤ pixel_radius) :
    search_kernel_shape pixel_radius = 2 * Int.toNat ⌊pixel_radius⌋ + 1 ∧
    (∀ row col : ℕ, row < search_kernel_shape pixel_radius →
      col < search_kernel_shape pixel_radius →
      (search_kernel pixel_radius row col = 1 ↔
        Real.sqrt (((col : ℝ) - (pixel_margin pixel_radius : ℕ))^2 +
            ((row : ℝ) - (pixel_margin pixel_radius : ℕ))^2) ≤
          (pixel_radius : ℝ))) ∧
    search_kernel pixel_radius (pixel_margin pixel_radius)
      (pixel_margin pixel_radius) = 1 := by
  refine ⟨rfl, ?_, ?_⟩
  · intro row col _ _
    rw [search_kernel]
    split_ifs with hcond
    · refine iff_of_true rfl ?_
      obtain ⟨-, hsq⟩ := hcond
      have hsq' : ((col : ℝ) - (pixel_margin pixel_radius : ℕ))^2 +
          ((row : ℝ) - (pixel_margin pixel_radius : ℕ))^2 ≤
            ((pixel_radius : ℝ))^2 := by
        exact_mod_cast hsq
      have hmono := Real.sqrt_le_sqrt hsq'
      rwa [Real.sqrt_sq (by exact_mod_cast h)] at hmono
    · refine iff_of_false (by norm_num) ?_
      intro hle
      apply hcond
      refine ⟨h, ?_⟩
      have hs : (0 : ℝ) ≤ ((col : ℝ) - (pixel_margin pixel_radius : ℕ))^2 +
          ((row : ℝ) - (pixel_margin pixel_radius : ℕ))^2 := by positivity
      have hsq := Real.sq_sqrt hs
      have : ((col : ℝ) - (pixel_margin pixel_radius : ℕ))^2 +
          ((row : ℝ) - (pixel_margin pixel_radius : ℕ))^2 ≤
            ((pixel_radius : ℝ))^2 := by
        nlinarith [Real.sqrt_nonneg (((col : ℝ) - (pixel_margin pixel_radius : ℕ))^2 +
          ((row : ℝ) - (pixel_margin pixel_radius : ℕ))^2)]
      exact_mod_cast this
  · rw [search_kernel, if_pos]
    refine ⟨h, ?_⟩
    simp
    positivity

theorem c8_search_kernel_spec_witness :
    (0 : ℚ) ≤ 3/2 ∧
    (search_kernel_shape (3/2) = 2 * Int.toNat ⌊(3/2 : ℚ)⌋ + 1 ∧
    (∀ row col : ℕ, row < search_kernel_shape (3/2) →
      col < search_kernel_shape (3/2) →
      (search_kernel (3/2) row col = 1 ↔
        Real.sqrt (((col : ℝ) - (pixel_margin (3/2) : ℕ))^2 +
            ((row : ℝ) - (pixel_margin (3/2) : ℕ))^2) ≤ ((3/2 : ℚ) : ℝ))) ∧
    search_kernel (3/2) (pixel_margin (3/2)) (pixel_margin (3/2)) = 1) :=
  ⟨by norm_num, c8_search_kernel_spec (3/2) (by norm_num)⟩

end Stormwater

namespace Stormwater

/-- Helper: for a nonnegative pixel radius the center cell of the
search kernel is flagged, since its distance to itself is 0. -/
theorem search_kernel_center (pixel_radius : ℚ) (h : 0 ≤ pixel_radius) :
    search_kernel pixel_radius (pixel_margin pixel_radius)
      (pixel_margin pixel_radius) = 1 := by
  rw [search_kernel, if_pos]
  refine ⟨h, ?_⟩
  simp
  positivity

/-- Helper: for a nonnegative pixel radius the offset (0, 0), the pixel
itself, is among the kernel-flagged offsets. -/
theorem center_mem_kernel_offsets (pixel_radius : ℚ) (h : 0 ≤ pixel_radius) :
    ((0 : ℤ), (0 : ℤ)) ∈ kernel_offsets pixel_radius := by
  rw [kernel_offsets]
  rw [List.mem_flatMap]
  refine ⟨pixel_margin pixel_radius, ?_, ?_⟩
  · rw [List.mem_range, search_kernel_shape]
    omega
  · rw [List.mem_filterMap]
    refine ⟨pixel_margin pixel_radius, ?_, ?_⟩
    · rw [List.mem_range, search_kernel_shape]
      omega
    · rw [if_pos (search_kernel_center pixel_radius h)]
      simp

/-- Helper: a pixel inside the extent that does not hold the nodata
value contributes its own center offset to its neighborhood, so its
included offset list is nonempty. -/
theorem center_mem_included_offsets (src : SourceRaster) (pixel_radius : ℚ)
    (x y : ℤ) (h : 0 ≤ pixel_radius) (hin : in_extent src x y = true)
    (hv : src.data x y ≠ src.nodata) :
    ((0 : ℤ), (0 : ℤ)) ∈ included_offsets src pixel_radius x y := by
  rw [included_offsets, List.mem_filter]
  refine ⟨center_mem_kernel_offsets pixel_radius h, ?_⟩
  simp only [add_zero]
  rw [Bool.and_eq_true, decide_eq_true_eq]
  exact ⟨hin, hv⟩

/-- C7: for a pixel of the source raster (with a nonnegative radius in
pixels), the Neighborhood Averager output is nodata exactly where the
source is nodata; a pixel all of whose kernel offsets are excluded is
nodata; and on a non-nodata pixel the output is the sum of the source
values at the non-excluded kernel-flagged offsets (those inside the
extent and not nodata) divided by the count of those offsets, which is
a nonempty collection because the center offset is never excluded. -/
theorem c7_raster_average_spec (src : SourceRaster) (radius pixel_size : ℚ)
    (x y : ℤ) (hpr : 0 ≤ radius / pixel_size) (hin : in_extent src x y = true) :
    (raster_average_pixel src radius pixel_size x y = none ↔
      src.data x y = src.nodata) ∧
    (included_offsets src (radius / pixel_size) x y = [] →
      raster_average_pixel src radius pixel_size x y = none) ∧
    (src.data x y ≠ src.nodata →
      raster_average_pixel src radius pixel_size x y =
        some (((included_offsets src (radius / pixel_size) x y).map
            (fun d => src.data (x + d.1) (y + d.2))).sum /
          ((included_offsets src (radius / pixel_size) x y).length : ℚ)) ∧
      included_offsets src (radius / pixel_size) x y ≠ []) := by
  rw [raster_average_pixel]
  by_cases hnd : src.data x y = src.nodata
  · refine ⟨iff_of_true ?_ hnd, fun _ => ?_, fun hv => absurd hnd hv⟩ <;>
      rw [convolve_2d_pixel, if_pos hnd]
  · have hne : included_offsets src (radius / pixel_size) x y ≠ [] :=
      List.ne_nil_of_mem
        (center_mem_included_offsets src (radius / pixel_size) x y hpr hin hnd)
    have hemp : (included_offsets src (radius / pixel_size) x y).isEmpty = false := by
      rw [List.isEmpty_eq_false_iff_exists_mem]
      exact ⟨_, center_mem_included_offsets src (radius / pixel_size) x y hpr hin hnd⟩
    rw [convolve_2d_pixel, if_neg hnd, hemp]
    refine ⟨iff_of_false (by simp) hnd, fun he => absurd he hne, fun _ => ⟨?_, hne⟩⟩
    simp

end Stormwater

namespace Stormwater

theorem c7_raster_average_spec_witness :
    (0 : ℚ) ≤ 3 / 1 ∧
    in_extent ⟨1, 1, fun _ _ => (5 : ℚ), -1⟩ 0 0 = true ∧
    raster_average_pixel ⟨1, 1, fun _ _ => (5 : ℚ), -1⟩ 3 1 0 0 ≠ none := by
  have h1 : (0 : ℚ) ≤ 3 / 1 := by norm_num
  have h2 : in_extent ⟨1, 1, fun _ _ => (5 : ℚ), -1⟩ 0 0 = true := rfl
  refine ⟨h1, h2, ?_⟩
  intro hnone
  have h3 :=
    (c7_raster_average_spec ⟨1, 1, fun _ _ => (5 : ℚ), -1⟩ 3 1 0 0 h1 h2).1.mp
      hnone
  norm_num at h3

end Stormwater
